import Mathlib

/-!
Shallow embedding of the request-execution engine of the Yaak API client
(src-tauri/src/http_request.rs, src-tauri/src/lib.rs and
src-tauri/yaak_models/src/queries.rs), with proofs checking the
natural-language specification of the engine against the code.
-/

namespace Yaak

/-- Lowercases one ASCII character, as both the http HeaderName constructor and
the url host parser do. -/
def lowerChar (c : Char) : Char :=
  if 65 ≤ c.toNat ∧ c.toNat ≤ 90 then Char.ofNat (c.toNat + 32) else c

/-- Rust str starts_with, over the char list of the string. -/
def strStartsWith (s p : String) : Bool :=
  p.data.isPrefixOf s.data

/-- Rust str ends_with, over the char list of the string. -/
def strEndsWith (s p : String) : Bool :=
  p.data.isSuffixOf s.data

/-- Direct translation of ensure_proto (http_request.rs lines 485 to 506).
The url crate is an external collaborator: url_host stands for Url::from_str
applied to the http-prefixed input followed by Url::host and to_string (its
full WHATWG parsing: whitespace stripping, authority delimiting, percent
decoding, IDNA punycoding, lowercasing), passed in as a function exactly the
way the template renderer is elsewhere, with none standing for a parse error.
The function keeps an existing http or https scheme; otherwise a parsed host
ending in .app, .dev or .page forces https, and every other case, parse
failures included, gets http. -/
def ensure_proto (url_host : String → Option String) (url_str : String) : String :=
  if strStartsWith url_str ("http://") || strStartsWith url_str ("https://") then url_str
  else
    match url_host url_str with
    | some h =>
      if strEndsWith h (".app") || strEndsWith h (".dev") || strEndsWith h (".page") then
        ("https://") ++ url_str
      else ("http://") ++ url_str
    | none => ("http://") ++ url_str

/-- The fields of the HttpResponse record that the executor mutates on the
paths the claims concern: status, total elapsed milliseconds, and the optional
terminal error message. -/
structure HttpResponseM where
  status : Int := 0
  elapsed : Int := 0
  error : Option String := none
deriving DecidableEq

/-- Direct translation of response_err (lib.rs lines 1077 to 1090): the
response is finalized with elapsed set to the -1 sentinel and the error
message recorded, then persisted. -/
def response_err (response : HttpResponseM) (error : String) : HttpResponseM :=
  { response with elapsed := -1, error := some error }

/-- Outcome of the spawned reqwest network task: an HTTP status with the
elapsed time on success, or a transport error message. -/
inductive NetOutcome where
  | success (status : Int) (elapsedMs : Nat)
  | failure (message : String)
deriving DecidableEq

/-- Handling of a completed network task (http_request.rs lines 381 to 482),
restricted to the response fields modelled here. -/
def handleNetOutcome (response : HttpResponseM) : NetOutcome → HttpResponseM
  | .success st ms => { response with status := st, elapsed := (ms : Int) }
  | .failure message => response_err response message

/-- The select race of http_request.rs lines 374 to 379: cancelledFirst
records that the cancellation arm won the race. The network outcome is an
Option so the model can speak about a network task that never produced a
result; the cancel arm returns without consulting it. -/
def raceSend (response : HttpResponseM) (cancelledFirst : Bool) (net : Option NetOutcome) :
    Option HttpResponseM :=
  if cancelledFirst then some (response_err response ("Request was cancelled"))
  else net.map (handleNetOutcome response)

/-- C5: whenever the cancellation signal wins the race against the network
response, the finalized response has elapsed equal to -1 and the error message
Request was cancelled, and the result does not depend on the in-flight network
task in any way (it equals the result computed with no network outcome at
all, so the cancel path never awaits the task). -/
theorem c5_cancel_path (response : HttpResponseM) (net : Option NetOutcome) :
    raceSend response true net = some (response_err response ("Request was cancelled")) ∧
    (response_err response ("Request was cancelled")).elapsed = -1 ∧
    (response_err response ("Request was cancelled")).error = some ("Request was cancelled") ∧
    raceSend response true net = raceSend response true none :=
  ⟨rfl, rfl, rfl, rfl⟩

/-- C6: whatever host the url crate resolves, a rendered url that already
carries an http or https scheme is left unchanged; otherwise the parsed
hostname decides the scheme that is prepended: a hostname ending in .app,
.dev or .page gets https, and every other case, parse failures included,
gets http. -/
theorem c6_scheme_normalization (url_host : String → Option String) (s : String) :
    ((strStartsWith s ("http://") || strStartsWith s ("https://")) = true →
      ensure_proto url_host s = s) ∧
    ((strStartsWith s ("http://") || strStartsWith s ("https://")) = false →
      (∀ h, url_host s = some h →
        ((strEndsWith h (".app") || strEndsWith h (".dev") || strEndsWith h (".page")) = true →
          ensure_proto url_host s = ("https://") ++ s) ∧
        ((strEndsWith h (".app") || strEndsWith h (".dev") || strEndsWith h (".page")) = false →
          ensure_proto url_host s = ("http://") ++ s)) ∧
      (url_host s = none → ensure_proto url_host s = ("http://") ++ s)) := by
  constructor
  · intro hp
    simp [ensure_proto, hp]
  · intro hp
    constructor
    · intro h hh
      constructor
      · intro ht
        simp [ensure_proto, hp, hh, ht]
      · intro ht
        simp [ensure_proto, hp, hh, ht]
    · intro hh
      simp [ensure_proto, hp, hh]

/-- Witness for C6 at the example inputs named by the spec, with the host
resolution instantiated at the identity-shaped function that returns the
input as the host, which is what the url crate resolves on these bare
domain names; the prefixed third example never consults it. -/
theorem c6_scheme_normalization_witness :
    ensure_proto some ("example.app") = ("https://") ++ ("example.app") ∧
    ensure_proto some ("example.com") = ("http://") ++ ("example.com") ∧
    ensure_proto some ("https://x.dev") = ("https://x.dev") := by
  refine ⟨?_, ?_, ?_⟩
  · exact ((((c6_scheme_normalization some ("example.app")).2 (by decide)).1
      ("example.app") rfl).1 (by decide))
  · exact ((((c6_scheme_normalization some ("example.com")).2 (by decide)).1
      ("example.com") rfl).2 (by decide))
  · exact ((c6_scheme_normalization some ("https://x.dev")).1 (by decide))

/-- UTF-8 byte encoding of one character, as the base64 encoder consumes a
Rust string. -/
def charUtf8 (c : Char) : List Nat :=
  let n := c.toNat
  if n < 128 then [n]
  else if n < 2048 then [192 + n / 64, 128 + n % 64]
  else if n < 65536 then [224 + n / 4096, 128 + n / 64 % 64, 128 + n % 64]
  else [240 + n / 262144, 128 + n / 4096 % 64, 128 + n / 64 % 64, 128 + n % 64]

/-- UTF-8 bytes of a string. -/
def utf8Bytes (s : String) : List Nat :=
  (s.data.map charUtf8).flatten

/-- Standard base64 alphabet. -/
def b64Alphabet : List Char :=
  ("ABCDEFGHIJKLMNOPQRSTUVWXYZabcdefghijklmnopqrstuvwxyz0123456789+/").data

/-- Total list indexing with the letter A as default, modelling the base64
table lookup. -/
def b64Lookup : List Char → Nat → Char
  | [], _ => Char.ofNat 65
  | c :: _, 0 => c
  | _ :: rest, n + 1 => b64Lookup rest n

/-- Character for one six-bit group. -/
def b64c (n : Nat) : Char :=
  b64Lookup b64Alphabet n

/-- Base64 character stream of a byte list, standard alphabet, no padding:
models base64 STANDARD_NO_PAD encoding as used for basic authentication. -/
def b64Chars : List Nat → List Char
  | [] => []
  | [a] => [b64c (a / 4), b64c (a % 4 * 16)]
  | [a, b] => [b64c (a / 4), b64c (a % 4 * 16 + b / 16), b64c (b % 16 * 4)]
  | a :: b :: d :: rest =>
    b64c (a / 4) :: b64c (a % 4 * 16 + b / 16) :: b64c (b % 16 * 4 + d / 64) ::
      b64c (d % 64) :: b64Chars rest

/-- Unpadded base64 encoding of a byte list, as a string. -/
def base64NoPad (bs : List Nat) : String :=
  String.mk (b64Chars bs)

theorem b64Lookup_mem_or_default (l : List Char) : ∀ n : Nat,
    b64Lookup l n = Char.ofNat 65 ∨ b64Lookup l n ∈ l := by
  induction l with
  | nil => intro n; left; rfl
  | cons c rest ih =>
    intro n
    cases n with
    | zero => right; exact List.mem_cons_self ..
    | succ m =>
      rcases ih m with h | h
      · left; exact h
      · right; exact List.mem_cons_of_mem _ h

theorem b64c_ne_pad (n : Nat) : b64c n ≠ Char.ofNat 61 := by
  rcases b64Lookup_mem_or_default b64Alphabet n with h | h
  · rw [b64c, h]; decide
  · rw [b64c]
    intro he
    rw [he] at h
    revert h
    decide

/-- The unpadded base64 encoder never emits the padding character. -/
theorem b64Chars_no_pad : ∀ bs : List Nat, ∀ c ∈ b64Chars bs, c ≠ Char.ofNat 61
  | [] => by intro c hc; simp [b64Chars] at hc
  | [a] => by
    intro c hc
    simp only [b64Chars, List.mem_cons, List.not_mem_nil, or_false] at hc
    rcases hc with h | h <;> (subst h; exact b64c_ne_pad _)
  | [a, b] => by
    intro c hc
    simp only [b64Chars, List.mem_cons, List.not_mem_nil, or_false] at hc
    rcases hc with h | h | h <;> (subst h; exact b64c_ne_pad _)
  | a :: b :: d :: rest => by
    intro c hc
    simp only [b64Chars, List.mem_cons] at hc
    rcases hc with h | h | h | h | h
    · subst h; exact b64c_ne_pad _
    · subst h; exact b64c_ne_pad _
    · subst h; exact b64c_ne_pad _
    · subst h; exact b64c_ne_pad _
    · exact b64Chars_no_pad rest c h

/-- Valid characters of an http HeaderName: lowercase and uppercase letters,
digits, and the token symbols with codes 33, 35, 36, 37, 38, 39, 42, 43, 45,
46, 94, 95, 96, 124 and 126. -/
def validHeaderNameChar (c : Char) : Bool :=
  let n := c.toNat
  (97 ≤ n && n ≤ 122) || (65 ≤ n && n ≤ 90) || (48 ≤ n && n ≤ 57) ||
    n == 33 || n == 35 || n == 36 || n == 37 || n == 38 || n == 39 ||
    n == 42 || n == 43 || n == 45 || n == 46 || n == 94 || n == 95 ||
    n == 96 || n == 124 || n == 126

/-- HeaderName::from_bytes succeeds exactly on a nonempty string of valid
token characters. -/
def validHeaderName (s : String) : Bool :=
  !s.data.isEmpty && s.data.all validHeaderNameChar

/-- HeaderValue::from_str accepts horizontal tab and every byte from space
upward except delete; characters above ASCII encode to bytes above 127, which
the byte-level check also accepts. -/
def validHeaderValueChar (c : Char) : Bool :=
  c.toNat == 9 || (32 ≤ c.toNat && c.toNat != 127)

def validHeaderValue (s : String) : Bool :=
  s.data.all validHeaderValueChar

/-- Lowercased header name, as HeaderName stores it. -/
def lowerName (s : String) : String :=
  String.mk (s.data.map lowerChar)

/-- One user-authored header entry of an HTTP request spec. -/
structure HttpRequestHeader where
  name : String
  value : String
  enabled : Bool
deriving DecidableEq

/-- A HeaderMap as an association list with one entry per lowercased name.
HeaderMap::insert replaces the value of an existing entry in place and
appends a new entry otherwise. -/
def headerMapInsert (m : List (String × String)) (k v : String) :
    List (String × String) :=
  if m.any (fun e => e.1 == k) then
    m.map (fun e => if e.1 == k then (k, v) else e)
  else m ++ [(k, v)]

/-- Value stored under a name, as HeaderMap::get. -/
def hmLookup (m : List (String × String)) (k : String) : Option String :=
  (m.find? (fun e => e.1 == k)).map (fun e => e.2)

theorem find?_replace (k v : String) (m : List (String × String)) :
    (m.map (fun e => if e.1 == k then (k, v) else e)).find? (fun e => e.1 == k) =
      if m.any (fun e => e.1 == k) then some (k, v) else none := by
  induction m with
  | nil => rfl
  | cons e rest ih =>
    by_cases he : e.1 == k
    · simp only [List.map_cons, he, if_true, List.any_cons, Bool.true_or]
      rw [List.find?_cons_of_pos _ (by simp)]
    · simp only [List.map_cons, he, if_false, List.any_cons, Bool.false_or]
      rw [List.find?_cons_of_neg _ (by simp [he]), ih]

theorem find?_of_any_false (k : String) (m : List (String × String))
    (h : m.any (fun e => e.1 == k) = false) :
    m.find? (fun e => e.1 == k) = none := by
  rw [List.find?_eq_none]
  intro x hx
  exact fun hpx => (List.any_eq_false.mp h x hx) hpx

/-- Looking up the key just inserted gives the inserted value. -/
theorem find?_append_or (p : String × String → Bool) (l2 : List (String × String)) :
    ∀ m : List (String × String),
      List.find? p (m ++ l2) = (List.find? p m).or (List.find? p l2) := by
  intro m
  induction m with
  | nil => simp
  | cons e rest ih =>
    by_cases he : p e
    · rw [List.cons_append, List.find?_cons_of_pos _ he, List.find?_cons_of_pos _ he]
      rfl
    · rw [List.cons_append, List.find?_cons_of_neg _ he, List.find?_cons_of_neg _ he, ih]

theorem find?_replace_ne (k k2 v : String) (hne : k2 ≠ k) :
    ∀ m : List (String × String),
      List.find? (fun e => e.1 == k2) (m.map (fun e => if e.1 == k then (k, v) else e)) =
        List.find? (fun e => e.1 == k2) m := by
  intro m
  induction m with
  | nil => rfl
  | cons e rest ih =>
    by_cases he : (e.1 == k) = true
    · have h1 : ((k, v).1 == k2) = false := by
        simp only [beq_eq_false_iff_ne, ne_eq]
        intro h
        exact hne h.symm
      have h2 : (e.1 == k2) = false := by
        simp only [beq_iff_eq] at he
        simp only [beq_eq_false_iff_ne, ne_eq, he]
        intro h
        exact hne h.symm
      simp only [List.map_cons, he, if_true]
      rw [List.find?_cons_of_neg _ (by simp [h1]), List.find?_cons_of_neg _ (by simp [h2]), ih]
    · have he2 : (if (e.1 == k) = true then (k, v) else e) = e := if_neg he
      simp only [List.map_cons, he2, List.find?_cons]
      cases hek2 : (e.1 == k2) with
      | true => rfl
      | false => exact ih

/-- Looking up the key just inserted gives the inserted value. -/
theorem hmLookup_insert_self (m : List (String × String)) (k v : String) :
    hmLookup (headerMapInsert m k v) k = some v := by
  unfold hmLookup headerMapInsert
  by_cases hany : m.any (fun e => e.1 == k)
  · rw [if_pos hany, find?_replace, if_pos hany]
    rfl
  · rw [if_neg hany, find?_append_or, find?_of_any_false k m (Bool.eq_false_iff.mpr hany),
      List.find?_cons]
    simp

/-- Inserting a different key does not change a lookup. -/
theorem hmLookup_insert_ne (m : List (String × String)) (k k2 v : String)
    (hne : k2 ≠ k) : hmLookup (headerMapInsert m k v) k2 = hmLookup m k2 := by
  unfold hmLookup headerMapInsert
  by_cases hany : m.any (fun e => e.1 == k)
  · rw [if_pos hany, find?_replace_ne k k2 v hne]
  · rw [if_neg hany, find?_append_or]
    have h1 : List.find? (fun e => e.1 == k2) [(k, v)] = none := by
      rw [List.find?_eq_none]
      intro x hx
      simp only [List.mem_singleton] at hx
      subst hx
      simp only [beq_iff_eq]
      intro h
      exact hne h.symm
    rw [h1]
    cases List.find? (fun e => e.1 == k2) m <;> rfl
/-- Processing of one user header entry (http_request.rs lines 140 to 168):
skip an entry whose name and value are both empty, skip a disabled entry,
render name and value, drop an entry whose rendered name or value fails
wire-token encoding, and insert every other entry into the header map. -/
def applyHeader (render : String → String) (m : List (String × String))
    (h : HttpRequestHeader) : List (String × String) :=
  if h.name == ("") && h.value == ("") then m
  else if !h.enabled then m
  else if !validHeaderName (render h.name) then m
  else if !validHeaderValue (render h.value) then m
  else headerMapInsert m (lowerName (render h.name)) (render h.value)

/-- The user header loop, folded over the entries in order. -/
def applyHeaders (render : String → String) (hs : List HttpRequestHeader)
    (m : List (String × String)) : List (String × String) :=
  hs.foldl (applyHeader render) m

/-- Field access on the opaque authentication payload: get of a key with
string coercion and empty-string defaults, as in the source. -/
def getAuthStr (auth : List (String × String)) (key : String) : String :=
  ((auth.find? (fun e => e.1 == key)).map (fun e => e.2)).getD ("")

/-- Authentication header injection (http_request.rs lines 170 to 202): basic
auth inserts an Authorization header whose payload is the word Basic and the
unpadded base64 of the rendered username, a colon, and the rendered password;
bearer auth inserts the word Bearer and the rendered token; any other type
inserts nothing. The name is stored lowercased, as HeaderMap stores it. -/
def applyAuth (render : String → String) (authType : Option String)
    (auth : List (String × String)) (m : List (String × String)) :
    List (String × String) :=
  match authType with
  | none => m
  | some b =>
    if b == ("basic") then
      let username := render (getAuthStr auth ("username"))
      let password := render (getAuthStr auth ("password"))
      headerMapInsert m ("authorization")
        (("Basic ") ++ base64NoPad (utf8Bytes (username ++ (":") ++ password)))
    else if b == ("bearer") then
      let token := render (getAuthStr auth ("token"))
      headerMapInsert m ("authorization") (("Bearer ") ++ token)
    else m

/-- Default headers the executor sets before the user headers (http_request.rs
lines 121 to 123). -/
def defaultHeaders : List (String × String) :=
  [(("user-agent"), ("yaak")), (("accept"), ("*/*"))]

/-- Header set handed to the request builder at http_request.rs line 357, for
a request without a multipart body (a multipart body additionally removes the
content-type entry, which no claim depends on): defaults, then the user
header entries in order, then computed authentication. -/
def buildHeaders (render : String → String) (hs : List HttpRequestHeader)
    (authType : Option String) (auth : List (String × String)) :
    List (String × String) :=
  applyAuth render authType auth (applyHeaders render hs defaultHeaders)

/-- C9: with basic authentication, the Authorization header sent is the word
Basic, a space, and the unpadded base64 of the UTF-8 bytes of the rendered
username, a colon, and the rendered password; the encoded part never contains
the padding character (code 61). -/
theorem c9_basic_auth_header (render : String → String)
    (hs : List HttpRequestHeader) (auth : List (String × String)) :
    hmLookup (buildHeaders render hs (some ("basic")) auth) ("authorization") =
      some (("Basic ") ++ base64NoPad (utf8Bytes
        (render (getAuthStr auth ("username")) ++ (":") ++
          render (getAuthStr auth ("password"))))) ∧
    (b64Chars (utf8Bytes
        (render (getAuthStr auth ("username")) ++ (":") ++
          render (getAuthStr auth ("password"))))).all
      (fun c => c != Char.ofNat 61) = true := by
  constructor
  · unfold buildHeaders applyAuth
    simp only [if_pos rfl]
    exact hmLookup_insert_self ..
  · rw [List.all_eq_true]
    intro c hc
    simpa using b64Chars_no_pad _ c hc

/-- Witness for C9: username u and password p yield the documented header. -/
theorem c9_basic_auth_header_witness :
    hmLookup (buildHeaders (fun s => s) [] (some ("basic"))
        [(("username"), ("u")), (("password"), ("p"))]) ("authorization") =
      some ("Basic dTpw") := by
  have h := c9_basic_auth_header (fun s => s) []
    [(("username"), ("u")), (("password"), ("p"))]
  rw [h.1]
  decide

/-- C2 counterexample: a request with basic auth and an enabled user header
named Authorization with value custom does not end up sending the value
custom; the computed Basic value is in the final header set instead, because
the auth insertion happens after the user header loop and replaces the value. -/
theorem c2_user_auth_header_loses :
    hmLookup (buildHeaders (fun s => s)
        [⟨("Authorization"), ("custom"), true⟩] (some ("basic"))
        [(("username"), ("u")), (("password"), ("p"))]) ("authorization") =
      some ("Basic dTpw") ∧
    hmLookup (buildHeaders (fun s => s)
        [⟨("Authorization"), ("custom"), true⟩] (some ("basic"))
        [(("username"), ("u")), (("password"), ("p"))]) ("authorization") ≠
      some ("custom") := by
  constructor
  · decide
  · decide

/-- C2 amended: computed auth headers are applied after the per-request
headers, so with basic or bearer authentication configured the Authorization
value in the final header set is always the computed one, whatever
Authorization entry the user supplied. -/
theorem c2_computed_auth_wins (render : String → String)
    (hs : List HttpRequestHeader) (auth : List (String × String)) :
    hmLookup (buildHeaders render hs (some ("basic")) auth) ("authorization") =
      some (("Basic ") ++ base64NoPad (utf8Bytes
        (render (getAuthStr auth ("username")) ++ (":") ++
          render (getAuthStr auth ("password"))))) ∧
    hmLookup (buildHeaders render hs (some ("bearer")) auth) ("authorization") =
      some (("Bearer ") ++ render (getAuthStr auth ("token"))) := by
  constructor
  · unfold buildHeaders applyAuth
    simp only [if_pos rfl]
    exact hmLookup_insert_self ..
  · unfold buildHeaders applyAuth
    have hb : (("bearer" : String) == ("basic" : String)) = false := by decide
    simp only [hb, Bool.false_eq_true, if_false, if_pos rfl]
    exact hmLookup_insert_self ..

/-- The disjunction of the three skip rules of the user header loop: both
name and value empty, entry disabled, or rendered name or value failing
wire-token encoding. -/
def headerSkipped (render : String → String) (h : HttpRequestHeader) : Bool :=
  (h.name == ("") && h.value == ("")) || !h.enabled ||
    !validHeaderName (render h.name) || !validHeaderValue (render h.value)

/-- Name under which a processed entry is inserted into the header map. -/
def headerKey (render : String → String) (h : HttpRequestHeader) : String :=
  lowerName (render h.name)

theorem applyHeader_of_skipped (render : String → String) (h : HttpRequestHeader)
    (hsk : headerSkipped render h = true) (m : List (String × String)) :
    applyHeader render m h = m := by
  unfold applyHeader
  unfold headerSkipped at hsk
  by_cases h1 : (h.name == ("") && h.value == ("")) = true
  · rw [if_pos h1]
  · rw [if_neg h1]
    by_cases h2 : (!h.enabled) = true
    · rw [if_pos h2]
    · rw [if_neg h2]
      by_cases h3 : (!validHeaderName (render h.name)) = true
      · rw [if_pos h3]
      · rw [if_neg h3]
        by_cases h4 : (!validHeaderValue (render h.value)) = true
        · rw [if_pos h4]
        · exfalso
          rw [Bool.eq_false_iff.mpr h1, Bool.eq_false_iff.mpr h2,
            Bool.eq_false_iff.mpr h3, Bool.eq_false_iff.mpr h4] at hsk
          simp at hsk

theorem applyHeader_lookup_self (render : String → String) (h : HttpRequestHeader)
    (m : List (String × String)) (hns : headerSkipped render h = false) :
    hmLookup (applyHeader render m h) (headerKey render h) = some (render h.value) := by
  unfold applyHeader
  unfold headerSkipped at hns
  simp only [Bool.or_eq_false_iff] at hns
  obtain ⟨⟨⟨h1, h2⟩, h3⟩, h4⟩ := hns
  rw [if_neg (by simp [h1]), if_neg (by simp [h2]), if_neg (by simp [h3]),
    if_neg (by simp [h4])]
  exact hmLookup_insert_self ..

theorem applyHeader_lookup_preserved (render : String → String)
    (h2 : HttpRequestHeader) (m : List (String × String)) (k : String)
    (hcond : headerSkipped render h2 = true ∨ headerKey render h2 ≠ k) :
    hmLookup (applyHeader render m h2) k = hmLookup m k := by
  rcases hcond with hsk | hne
  · rw [applyHeader_of_skipped render h2 hsk]
  · unfold applyHeader
    by_cases c1 : (h2.name == ("") && h2.value == ("")) = true
    · rw [if_pos c1]
    · rw [if_neg c1]
      by_cases c2 : (!h2.enabled) = true
      · rw [if_pos c2]
      · rw [if_neg c2]
        by_cases c3 : (!validHeaderName (render h2.name)) = true
        · rw [if_pos c3]
        · rw [if_neg c3]
          by_cases c4 : (!validHeaderValue (render h2.value)) = true
          · rw [if_pos c4]
          · rw [if_neg c4]
            exact hmLookup_insert_ne _ _ _ _ (fun hkk => hne hkk.symm)

theorem foldl_applyHeader_lookup_preserved (render : String → String) (k : String) :
    ∀ (hs : List HttpRequestHeader) (m : List (String × String)),
      (∀ h2 ∈ hs, headerSkipped render h2 = true ∨ headerKey render h2 ≠ k) →
      hmLookup (hs.foldl (applyHeader render) m) k = hmLookup m k := by
  intro hs
  induction hs with
  | nil =>
    intro m _
    rfl
  | cons h2 rest ih =>
    intro m hcond
    rw [List.foldl_cons, ih _ (fun x hx => hcond x (List.mem_cons_of_mem _ hx)),
      applyHeader_lookup_preserved render h2 m k (hcond h2 (List.mem_cons_self ..))]

theorem applyAuth_lookup_preserved (render : String → String)
    (authType : Option String) (auth : List (String × String))
    (m : List (String × String)) (k : String) (hk : k ≠ ("authorization")) :
    hmLookup (applyAuth render authType auth m) k = hmLookup m k := by
  cases authType with
  | none => rfl
  | some b =>
    by_cases hb : (b == ("basic")) = true
    · simp only [applyAuth, hb, if_true]
      exact hmLookup_insert_ne _ _ _ _ hk
    · by_cases hb2 : (b == ("bearer")) = true
      · simp only [applyAuth, Bool.eq_false_iff.mpr hb, Bool.false_eq_true, if_false,
          hb2, if_true]
        exact hmLookup_insert_ne _ _ _ _ hk
      · simp only [applyAuth, Bool.eq_false_iff.mpr hb, Bool.eq_false_iff.mpr hb2,
          Bool.false_eq_true, if_false]

/-- C7 counterexample: two enabled, valid entries named X-A with values 1 and
2. The final header set holds the value 2 only; the first enabled entry is
not in the sent header set in any casing, refuting the final clause of the
claim that every non-skipped enabled entry remains in the sent header set. -/
theorem c7_duplicate_entry_dropped :
    hmLookup (buildHeaders (fun s => s)
        [⟨("X-A"), ("1"), true⟩, ⟨("X-A"), ("2"), true⟩] none []) ("x-a") =
      some ("2") ∧
    (("x-a"), ("1")) ∉ buildHeaders (fun s => s)
        [⟨("X-A"), ("1"), true⟩, ⟨("X-A"), ("2"), true⟩] none [] ∧
    (("X-A"), ("1")) ∉ buildHeaders (fun s => s)
        [⟨("X-A"), ("1"), true⟩, ⟨("X-A"), ("2"), true⟩] none [] := by
  refine ⟨by decide, by decide, by decide⟩

/-- C7 amended: an entry with empty name and empty value, a disabled entry,
and an entry whose rendered name or value fails wire-token encoding are each
dropped without affecting the rest of the assembled header set; every other
enabled entry is inserted under its lowercased rendered name, so its value is
in the final header set provided no later entry inserts the same name and the
name is not the one computed authentication overwrites. -/
theorem c7_header_rules (render : String → String)
    (pre post : List HttpRequestHeader) (h : HttpRequestHeader)
    (authType : Option String) (auth : List (String × String)) :
    (headerSkipped render h = true →
      buildHeaders render (pre ++ h :: post) authType auth =
        buildHeaders render (pre ++ post) authType auth) ∧
    (headerSkipped render h = false →
      (∀ h2 ∈ post, headerSkipped render h2 = true ∨
        headerKey render h2 ≠ headerKey render h) →
      headerKey render h ≠ ("authorization") →
      hmLookup (buildHeaders render (pre ++ h :: post) authType auth)
        (headerKey render h) = some (render h.value)) := by
  constructor
  · intro hsk
    unfold buildHeaders applyHeaders
    rw [List.foldl_append, List.foldl_append, List.foldl_cons,
      applyHeader_of_skipped render h hsk]
  · intro hns hpost hk
    unfold buildHeaders applyHeaders
    rw [List.foldl_append, List.foldl_cons,
      applyAuth_lookup_preserved render authType auth _ _ hk,
      foldl_applyHeader_lookup_preserved render _ post _ hpost,
      applyHeader_lookup_self render h _ hns]

/-- Witness for C7 at a concrete enabled valid entry. -/
theorem c7_header_rules_witness :
    hmLookup (buildHeaders (fun s => s) [⟨("X-Test"), ("val"), true⟩] none [])
      (headerKey (fun s => s) ⟨("X-Test"), ("val"), true⟩) = some ("val") :=
  (c7_header_rules (fun s => s) [] [] ⟨("X-Test"), ("val"), true⟩ none []).2
    (by decide) (by simp) (by decide)

/-- Types of the events in a gRPC connection event log. -/
inductive GrpcEventType where
  | connectionStart
  | clientMessage
  | serverMessage
  | info
  | error
  | connectionEnd
deriving DecidableEq

/-- One persisted gRPC event, restricted to the fields the engine writes:
type, text content, optional terminal status code, optional error message,
metadata map, and the creation timestamp the store orders by. -/
structure GrpcEvent where
  eventType : GrpcEventType
  content : String := ("")
  status : Option Int := none
  error : Option String := none
  metadata : List (String × String) := []
  createdAt : Nat := 0
deriving DecidableEq

/-- The tonic status codes the engine writes: Ok is 0, Cancelled is 1,
Unknown is 2, Unavailable is 14. -/
def codeOk : Int := 0

def codeCancelled : Int := 1

def codeUnknown : Int := 2

def codeUnavailable : Int := 14

/-- A tonic Status: code, message and trailer metadata. -/
structure StatusInfo where
  code : Int
  message : String := ("")
  metadata : List (String × String) := []
deriving DecidableEq

/-- A tonic transport or RPC error: an optional Status plus a message. -/
structure GrpcErr where
  status : Option StatusInfo := none
  message : String := ("")
deriving DecidableEq

/-- Variant name of a tonic status code, as its Debug form prints it. -/
def codeName (c : Int) : String :=
  if c = 0 then ("Ok")
  else if c = 1 then ("Cancelled")
  else if c = 2 then ("Unknown")
  else if c = 3 then ("InvalidArgument")
  else if c = 4 then ("DeadlineExceeded")
  else if c = 5 then ("NotFound")
  else if c = 6 then ("AlreadyExists")
  else if c = 7 then ("PermissionDenied")
  else if c = 8 then ("ResourceExhausted")
  else if c = 9 then ("FailedPrecondition")
  else if c = 10 then ("Aborted")
  else if c = 11 then ("OutOfRange")
  else if c = 12 then ("Unimplemented")
  else if c = 13 then ("Internal")
  else if c = 14 then ("Unavailable")
  else if c = 15 then ("DataLoss")
  else if c = 16 then ("Unauthenticated")
  else ("Unknown")

/-- Display form of a tonic Status, the content of the ConnectionEnd event
written inside the receive loop on a status error: the code variant name and
the debug-quoted message, as tonic prints them; the details and metadata
debug tail tonic appends is elided, since the model does not carry details
and no claim reads this content. -/
def statusDisplay (s : StatusInfo) : String :=
  ("status: ") ++ codeName s.code ++ (", message: \"") ++ s.message ++ ("\"")

/-- A successful non-streamed response: its metadata and the serialized
message content. -/
structure RespMsg where
  metadata : List (String × String) := []
  content : String := ("")
deriving DecidableEq

/-- One receive-loop step of a server stream: a serialized message, or a
status error. A terminating run ends with the stream reporting no further
message, which the model represents by the list ending. -/
inductive StreamItem where
  | okMsg (content : String)
  | errStatus (s : StatusInfo)
deriving DecidableEq

/-- An opened server stream: initial metadata, the receive-loop steps, and
the trailers read at clean close. -/
structure StreamConn where
  metadata : List (String × String) := []
  items : List StreamItem := []
  trailers : List (String × String) := []
deriving DecidableEq

/-- Outcome of a call that returns one response. -/
inductive UnaryOutcome where
  | ok (r : RespMsg)
  | err (e : GrpcErr)
deriving DecidableEq

/-- Outcome of a call that returns a response stream. -/
inductive StreamOutcome where
  | ok (s : StreamConn)
  | err (e : GrpcErr)
deriving DecidableEq

/-- Result of the dispatched call: shapes whose server side streams get a
stream outcome, the others a single-response outcome. -/
inductive CallResult where
  | msgRes (r : UnaryOutcome)
  | streamRes (r : StreamOutcome)
deriving DecidableEq

/-- Streaming directionality of the resolved method descriptor. -/
structure MethodDesc where
  isClientStreaming : Bool
  isServerStreaming : Bool
deriving DecidableEq

/-- ConnectionEnd written for a connect or call error (lib.rs lines 516 to
539 and 565 to 589): status, message and metadata from the carried Status,
or the unknown code when the error carries none; content Failed to connect. -/
def failedConnectEvent (e : GrpcErr) : GrpcEvent :=
  match e.status with
  | some s =>
    { eventType := .connectionEnd, error := some s.message, status := some s.code,
      content := ("Failed to connect"), metadata := s.metadata }
  | none =>
    { eventType := .connectionEnd, error := some e.message, status := some codeUnknown,
      content := ("Failed to connect") }

/-- Info event on receipt of response metadata (lib.rs lines 476 to 493 and
545 to 562): the content distinguishes whether the metadata map is empty. -/
def infoEvent (meta : List (String × String)) : GrpcEvent :=
  { eventType := .info,
    content := if meta.isEmpty then ("Received response")
      else ("Received response with metadata"),
    metadata := meta }

/-- The receive loop of a call with a response stream (lib.rs lines 593 to
643): each message becomes one ServerMessage event; a status error becomes a
ConnectionEnd event and the loop continues; the stream reporting no further
message reads the trailers and writes the clean-close ConnectionEnd with the
unavailable status, breaking the loop. -/
def streamLoop : List StreamItem → List (String × String) → List GrpcEvent
  | [], trailers =>
    [{ eventType := .connectionEnd, content := ("Connection complete"),
       status := some codeUnavailable, metadata := trailers }]
  | .okMsg m :: rest, trailers =>
    { eventType := .serverMessage, content := m } :: streamLoop rest trailers
  | .errStatus s :: rest, trailers =>
    { eventType := .connectionEnd, content := statusDisplay s, status := some s.code,
      metadata := s.metadata } :: streamLoop rest trailers

/-- Events of the single-response path (lib.rs lines 476 to 543): Info,
ServerMessage and the Ok ConnectionEnd on success, else the failure event. -/
def unaryEvents : UnaryOutcome → List GrpcEvent
  | .ok r =>
    [infoEvent r.metadata,
     { eventType := .serverMessage, content := r.content },
     { eventType := .connectionEnd, content := ("Connection complete"),
       status := some codeOk }]
  | .err e => [failedConnectEvent e]

/-- Events of the streamed-response path (lib.rs lines 545 to 643): the Info
event then the receive loop on success, else the failure event. -/
def streamEvents : StreamOutcome → List GrpcEvent
  | .ok s => infoEvent s.metadata :: streamLoop s.items s.trailers
  | .err e => [failedConnectEvent e]

/-- The dispatch of the exchange task (lib.rs lines 429 to 461): a shape
whose server side streams runs the streamed-response path, the others run
the single-response path; a shape paired with the wrong outcome kind cannot
arise and yields no events. -/
def dispatchEvents (mdesc : MethodDesc) (result : CallResult) : List GrpcEvent :=
  match mdesc.isServerStreaming, result with
  | true, .streamRes so => streamEvents so
  | false, .msgRes mo => unaryEvents mo
  | _, _ => []

/-- The exchange task grpc_listen (lib.rs lines 428 to 644): the method shape
decides which outcome path runs; for shapes where the client does not stream,
a ClientMessage event carrying the outbound message is written first. -/
def grpcListen (mdesc : MethodDesc) (msg : String) (result : CallResult) :
    List GrpcEvent :=
  (if !mdesc.isClientStreaming then
      [{ eventType := GrpcEventType.clientMessage, content := msg }]
    else []) ++ dispatchEvents mdesc result

/-- The outbound message for shapes where the client does not stream (lib.rs
lines 410 to 414): empty message text is replaced by the empty JSON object. -/
def effectiveMessage (m : String) : String :=
  if m == ("") then ("\x7b\x7d") else m

/-- ConnectionStart written before the exchange task runs (lib.rs lines 416
to 426). -/
def connectionStartEvent (url : String) (meta : List (String × String)) :
    GrpcEvent :=
  { eventType := .connectionStart, content := ("Connecting to ") ++ url,
    metadata := meta }

/-- ConnectionEnd written when cancellation wins the finalize race (lib.rs
lines 669 to 678). -/
def cancelEndEvent : GrpcEvent :=
  { eventType := .connectionEnd, content := ("Cancelled"),
    status := some codeCancelled }

/-- Full event trace of one connection run (lib.rs lines 404 to 693):
ConnectionStart, then the exchange events; when cancellation fires after k
persisted exchange events, the remaining exchange events are dropped and the
Cancelled ConnectionEnd is written instead. -/
def grpcRunEvents (mdesc : MethodDesc) (url : String)
    (meta : List (String × String)) (msgRaw : String) (result : CallResult)
    (cancelAfter : Option Nat) : List GrpcEvent :=
  connectionStartEvent url meta ::
    (match cancelAfter with
     | none => grpcListen mdesc (effectiveMessage msgRaw) result
     | some k => (grpcListen mdesc (effectiveMessage msgRaw) result).take k ++
         [cancelEndEvent])

/-- Number of ConnectionEnd events in a trace. -/
def countConnectionEnd (events : List GrpcEvent) : Nat :=
  events.countP (fun e => e.eventType == GrpcEventType.connectionEnd)

/-- C1 fails on the code: a server-streaming exchange whose stream yields one
status error and then closes, with no cancellation, persists two
ConnectionEnd events, because the receive loop writes a ConnectionEnd for the
error without stopping and the subsequent clean close writes another one. -/
theorem c1_double_connection_end :
    countConnectionEnd (grpcRunEvents ⟨false, true⟩ ("h") [] ("m")
      (CallResult.streamRes (StreamOutcome.ok
        { items := [StreamItem.errStatus { code := 13 }] })) none) = 2 := by
  decide

/-- State of the caller-message relay callback for one connection: whether
the cancellation watch is set and whether the sending half of the bounded
channel is still held. -/
structure RelayState where
  cancelled : Bool
  senderOpen : Bool
deriving DecidableEq

/-- The three control signals of the caller-message channel, after JSON
parsing of the delivered payload; none models a payload that failed to parse
as a control signal, which is only logged. -/
inductive RelayIncoming where
  | message (raw : String)
  | commit
  | cancel
deriving DecidableEq

/-- The relay callback (lib.rs lines 337 to 402): returns the new state, the
events persisted, and the messages forwarded into the stream. A cancelled
connection ignores the signal, as does one whose sender was dropped. A
payload message is deserialized against the request schema: failure persists
one Error event only and returns; success forwards the message and persists
one ClientMessage event with the raw content. Commit drops the sender;
cancel sets the cancellation watch. -/
def handleRelayMessage (deser : String → Except String String)
    (st : RelayState) (inc : Option RelayIncoming) :
    RelayState × List GrpcEvent × List String :=
  if st.cancelled then (st, [], [])
  else if !st.senderOpen then (st, [], [])
  else
    match inc with
    | some (.message raw) =>
      match deser raw with
      | .error e => (st, [{ eventType := GrpcEventType.error, content := e }], [])
      | .ok d =>
        (st, [{ eventType := GrpcEventType.clientMessage, content := raw }], [d])
    | some .commit => ({ st with senderOpen := false }, [], [])
    | some .cancel => ({ st with cancelled := true }, [], [])
    | none => (st, [], [])

/-- C4 counterexample: a payload message failing deserialization persists one
Error event and no ClientMessage event at all, refuting the claim that the
raw content is recorded as a ClientMessage whether or not the message
deserializes. -/
theorem c4_no_client_message_on_bad_deser :
    (handleRelayMessage (fun _ => Except.error ("bad")) ⟨false, true⟩
        (some (RelayIncoming.message ("xyz")))).2.1 =
      [{ eventType := GrpcEventType.error, content := ("bad") }] ∧
    ((handleRelayMessage (fun _ => Except.error ("bad")) ⟨false, true⟩
        (some (RelayIncoming.message ("xyz")))).2.1.all
      (fun e => e.eventType != GrpcEventType.clientMessage)) = true := by
  refine ⟨by decide, by decide⟩

/-- C4 amended: on a live relay (not cancelled, sender held), a payload
message that deserializes successfully persists exactly one ClientMessage
event recording the raw content and forwards the message; one that fails to
deserialize persists exactly one Error event scoped to that message, no
ClientMessage, forwards nothing, and leaves the relay state unchanged, so
the connection is not terminated. -/
theorem c4_relay_message_events (deser : String → Except String String)
    (st : RelayState) (raw : String)
    (h1 : st.cancelled = false) (h2 : st.senderOpen = true) :
    (∀ d, deser raw = Except.ok d →
      handleRelayMessage deser st (some (RelayIncoming.message raw)) =
        (st, [{ eventType := GrpcEventType.clientMessage, content := raw }], [d])) ∧
    (∀ e, deser raw = Except.error e →
      handleRelayMessage deser st (some (RelayIncoming.message raw)) =
        (st, [{ eventType := GrpcEventType.error, content := e }], [])) := by
  constructor
  · intro d hd
    simp [handleRelayMessage, h1, h2, hd]
  · intro e he
    simp [handleRelayMessage, h1, h2, he]

/-- Witness for C4 at a concrete deserializer and message. -/
theorem c4_relay_message_events_witness :
    handleRelayMessage (fun _ => Except.ok ("d")) ⟨false, true⟩
        (some (RelayIncoming.message ("r"))) =
      (⟨false, true⟩,
        [{ eventType := GrpcEventType.clientMessage, content := ("r") }], [("d")]) :=
  ((c4_relay_message_events (fun _ => Except.ok ("d")) ⟨false, true⟩ ("r")
    rfl rfl).1) ("d") rfl

/-- Descending insertion by creation time, for the order-by of the event
query. -/
def insertByCreatedAtDesc (e : GrpcEvent) : List GrpcEvent → List GrpcEvent
  | [] => [e]
  | x :: xs =>
    if x.createdAt ≤ e.createdAt then e :: x :: xs
    else x :: insertByCreatedAtDesc e xs

/-- Models list_grpc_events (queries.rs lines 593 to 609): the stored events
of a connection, ordered by created_at descending. -/
def list_grpc_events (events : List GrpcEvent) : List GrpcEvent :=
  events.foldr insertByCreatedAtDesc []

/-- Status derivation on finalize (lib.rs lines 651 to 667): find the first
ConnectionEnd of the descending-ordered event list, take its status if any,
and default to the unavailable code. -/
def closedStatusOf (events : List GrpcEvent) : Int :=
  ((((list_grpc_events events).find?
      (fun e => e.eventType == GrpcEventType.connectionEnd)).bind
    (fun e => e.status)).getD codeUnavailable)

theorem mem_insertByCreatedAtDesc (e x : GrpcEvent) :
    ∀ l : List GrpcEvent, x ∈ insertByCreatedAtDesc e l ↔ x = e ∨ x ∈ l := by
  intro l
  induction l with
  | nil => simp [insertByCreatedAtDesc]
  | cons y ys ih =>
    by_cases hle : y.createdAt ≤ e.createdAt
    · simp [insertByCreatedAtDesc, hle, List.mem_cons]
    · simp only [insertByCreatedAtDesc, hle, if_false, List.mem_cons, ih]
      tauto

theorem mem_list_grpc_events (x : GrpcEvent) :
    ∀ events : List GrpcEvent, x ∈ list_grpc_events events ↔ x ∈ events := by
  intro events
  induction events with
  | nil => simp [list_grpc_events]
  | cons e rest ih =>
    unfold list_grpc_events at ih ⊢
    rw [List.foldr_cons, mem_insertByCreatedAtDesc, ih, List.mem_cons]

theorem pairwise_insertByCreatedAtDesc (e : GrpcEvent) :
    ∀ l : List GrpcEvent,
      List.Pairwise (fun a b => b.createdAt ≤ a.createdAt) l →
      List.Pairwise (fun a b => b.createdAt ≤ a.createdAt)
        (insertByCreatedAtDesc e l) := by
  intro l
  induction l with
  | nil =>
    intro _
    simp [insertByCreatedAtDesc]
  | cons x xs ih =>
    intro hp
    rw [List.pairwise_cons] at hp
    by_cases hle : x.createdAt ≤ e.createdAt
    · simp only [insertByCreatedAtDesc, hle, if_true]
      rw [List.pairwise_cons]
      refine ⟨?_, List.pairwise_cons.mpr hp⟩
      intro y hy
      rcases List.mem_cons.mp hy with rfl | hy2
      · exact hle
      · exact le_trans (hp.1 y hy2) hle
    · simp only [insertByCreatedAtDesc, hle, if_false]
      rw [List.pairwise_cons]
      refine ⟨?_, ih hp.2⟩
      intro y hy
      rcases (mem_insertByCreatedAtDesc e y xs).mp hy with rfl | hy2
      · exact le_of_lt (Nat.lt_of_not_le hle)
      · exact hp.1 y hy2

theorem pairwise_list_grpc_events (events : List GrpcEvent) :
    List.Pairwise (fun a b => b.createdAt ≤ a.createdAt)
      (list_grpc_events events) := by
  induction events with
  | nil => simp [list_grpc_events]
  | cons e rest ih =>
    unfold list_grpc_events at ih ⊢
    rw [List.foldr_cons]
    exact pairwise_insertByCreatedAtDesc e _ ih

theorem find?_max_of_pairwise (p : GrpcEvent → Bool) :
    ∀ l : List GrpcEvent,
      List.Pairwise (fun a b => b.createdAt ≤ a.createdAt) l →
      ∀ x, l.find? p = some x →
        ∀ y ∈ l, p y = true → y.createdAt ≤ x.createdAt := by
  intro l
  induction l with
  | nil =>
    intro _ x hx
    simp [List.find?] at hx
  | cons a as ih =>
    intro hp x hfind y hy hpy
    rw [List.pairwise_cons] at hp
    cases hpa : p a with
    | true =>
      rw [List.find?_cons_of_pos _ hpa] at hfind
      have hax : a = x := by simpa using hfind
      subst hax
      rcases List.mem_cons.mp hy with rfl | hy2
      · exact le_refl _
      · exact hp.1 y hy2
    | false =>
      rw [List.find?_cons_of_neg _ (by simp [hpa])] at hfind
      rcases List.mem_cons.mp hy with rfl | hy2
      · rw [hpy] at hpa
        cases hpa
      · exact ih hp.2 x hfind y hy2 hpy

/-- C3: the terminal status written back on finalize equals the status of a
most recent ConnectionEnd event of the log, defaulting to the unavailable
code when that event carries no status or when no ConnectionEnd exists. -/
theorem c3_status_derivation (events : List GrpcEvent) :
    ((∀ e ∈ events, e.eventType ≠ GrpcEventType.connectionEnd) →
      closedStatusOf events = codeUnavailable) ∧
    (∀ e0 ∈ events, e0.eventType = GrpcEventType.connectionEnd →
      ∃ e ∈ events, e.eventType = GrpcEventType.connectionEnd ∧
        (∀ e2 ∈ events, e2.eventType = GrpcEventType.connectionEnd →
          e2.createdAt ≤ e.createdAt) ∧
        closedStatusOf events = e.status.getD codeUnavailable) := by
  constructor
  · intro hnone
    unfold closedStatusOf
    rw [List.find?_eq_none.mpr ?_]
    · rfl
    · intro x hx
      have hxm := (mem_list_grpc_events x events).mp hx
      simp only [beq_iff_eq]
      exact hnone x hxm
  · intro e0 he0 htype
    cases hfind : (list_grpc_events events).find?
        (fun e => e.eventType == GrpcEventType.connectionEnd) with
    | none =>
      exfalso
      have := List.find?_eq_none.mp hfind e0
        ((mem_list_grpc_events e0 events).mpr he0)
      simp only [beq_iff_eq] at this
      exact this htype
    | some x =>
      refine ⟨x, (mem_list_grpc_events x events).mp
        (List.mem_of_find?_eq_some hfind), ?_, ?_, ?_⟩
      · have := List.find?_some hfind
        simpa using this
      · intro e2 he2 ht2
        exact find?_max_of_pairwise _ _ (pairwise_list_grpc_events events) x hfind
          e2 ((mem_list_grpc_events e2 events).mpr he2) (by simpa using ht2)
      · unfold closedStatusOf
        rw [hfind]
        rfl

/-- Witness for C3: a log with no ConnectionEnd finalizes to the unavailable
code, and a log whose most recent ConnectionEnd carries no status does too,
even when an older ConnectionEnd carries one. -/
theorem c3_status_derivation_witness :
    closedStatusOf [{ eventType := GrpcEventType.info, createdAt := 1 }] =
      codeUnavailable ∧
    closedStatusOf
      [{ eventType := GrpcEventType.connectionEnd, status := some 5, createdAt := 1 },
       { eventType := GrpcEventType.connectionEnd, status := none, createdAt := 2 }] =
      codeUnavailable := by
  constructor
  · exact (c3_status_derivation _).1 (by decide)
  · decide

theorem streamLoop_ne_nil (items : List StreamItem)
    (trailers : List (String × String)) : streamLoop items trailers ≠ [] := by
  cases items with
  | nil => simp [streamLoop]
  | cons i rest => cases i <;> simp [streamLoop]

/-- When no receive-loop step is an error, the last event of the loop is the
clean-close ConnectionEnd with the unavailable status and the trailers. -/
theorem streamLoop_getLast_clean :
    ∀ (items : List StreamItem) (trailers : List (String × String)),
      (∀ i ∈ items, ∃ m, i = StreamItem.okMsg m) →
      (streamLoop items trailers).getLast? =
        some { eventType := GrpcEventType.connectionEnd,
               content := ("Connection complete"),
               status := some codeUnavailable, metadata := trailers } := by
  intro items
  induction items with
  | nil =>
    intro trailers _
    rfl
  | cons i rest ih =>
    intro trailers hok
    rcases hok i (List.mem_cons_self ..) with ⟨m, rfl⟩
    show ({ eventType := GrpcEventType.serverMessage, content := m } ::
      streamLoop rest trailers : List GrpcEvent).getLast? = _
    cases hsl : streamLoop rest trailers with
    | nil => exact absurd hsl (streamLoop_ne_nil _ _)
    | cons a l =>
      rw [List.getLast?_cons_cons, ← hsl]
      exact ih trailers (fun x hx => hok x (List.mem_cons_of_mem _ hx))

theorem dispatchEvents_stream (mdesc : MethodDesc) (so : StreamOutcome)
    (hs : mdesc.isServerStreaming = true) :
    dispatchEvents mdesc (CallResult.streamRes so) = streamEvents so := by
  unfold dispatchEvents
  rw [hs]

theorem getLast?_cons_append_of_some (a : GrpcEvent) (l1 l2 : List GrpcEvent)
    (y : GrpcEvent) (h : l2.getLast? = some y) :
    (a :: (l1 ++ l2)).getLast? = some y := by
  have he : (a :: (l1 ++ l2)) = (a :: l1) ++ l2 := by simp
  rw [he, List.getLast?_append, h]
  rfl

/-- C8: a call whose server side streams and whose stream ends with no
explicit error status from the server has, as its final persisted event, a
ConnectionEnd with content Connection complete, the unavailable status code
(not the Ok code), and the received trailers attached as metadata. -/
theorem c8_clean_close_unavailable (mdesc : MethodDesc) (url : String)
    (meta : List (String × String)) (msgRaw : String) (conn : StreamConn)
    (hs : mdesc.isServerStreaming = true)
    (hok : ∀ i ∈ conn.items, ∃ m, i = StreamItem.okMsg m) :
    (grpcRunEvents mdesc url meta msgRaw
        (CallResult.streamRes (StreamOutcome.ok conn)) none).getLast? =
      some { eventType := GrpcEventType.connectionEnd,
             content := ("Connection complete"),
             status := some codeUnavailable, metadata := conn.trailers } := by
  have hlast : (streamEvents (StreamOutcome.ok conn)).getLast? =
      some { eventType := GrpcEventType.connectionEnd,
             content := ("Connection complete"),
             status := some codeUnavailable, metadata := conn.trailers } := by
    show (infoEvent conn.metadata ::
      streamLoop conn.items conn.trailers).getLast? = _
    cases hsl : streamLoop conn.items conn.trailers with
    | nil => exact absurd hsl (streamLoop_ne_nil _ _)
    | cons a l =>
      rw [List.getLast?_cons_cons, ← hsl]
      exact streamLoop_getLast_clean conn.items conn.trailers hok
  show (connectionStartEvent url meta ::
    grpcListen mdesc (effectiveMessage msgRaw)
      (CallResult.streamRes (StreamOutcome.ok conn))).getLast? = _
  unfold grpcListen
  rw [dispatchEvents_stream mdesc _ hs]
  exact getLast?_cons_append_of_some _ _ _ _ hlast

/-- Witness for C8 at a concrete bidirectional run with one server message. -/
theorem c8_clean_close_unavailable_witness :
    (grpcRunEvents ⟨true, true⟩ ("h") [] ("") (CallResult.streamRes
        (StreamOutcome.ok
          { items := [StreamItem.okMsg ("sm")], trailers := [(("k"), ("v"))] }))
        none).getLast? =
      some { eventType := GrpcEventType.connectionEnd,
             content := ("Connection complete"),
             status := some codeUnavailable, metadata := [(("k"), ("v"))] } :=
  c8_clean_close_unavailable ⟨true, true⟩ ("h") [] ("")
    { items := [StreamItem.okMsg ("sm")], trailers := [(("k"), ("v"))] }
    rfl (by intro i hi; rw [List.mem_singleton] at hi; exact ⟨("sm"), hi⟩)

theorem failedConnectEvent_type (e : GrpcErr) :
    (failedConnectEvent e).eventType = GrpcEventType.connectionEnd := by
  rcases e with ⟨st, msg⟩
  cases st <;> rfl

theorem streamLoop_no_client_message :
    ∀ (items : List StreamItem) (trailers : List (String × String)),
      ∀ e ∈ streamLoop items trailers,
        e.eventType ≠ GrpcEventType.clientMessage := by
  intro items
  induction items with
  | nil =>
    intro trailers e he
    simp only [streamLoop, List.mem_singleton] at he
    subst he
    simp
  | cons i rest ih =>
    intro trailers e he
    cases i with
    | okMsg m =>
      simp only [streamLoop, List.mem_cons] at he
      rcases he with rfl | h2
      · simp
      · exact ih trailers e h2
    | errStatus s =>
      simp only [streamLoop, List.mem_cons] at he
      rcases he with rfl | h2
      · simp
      · exact ih trailers e h2

theorem dispatchEvents_msg (mdesc : MethodDesc) (mo : UnaryOutcome)
    (hs : mdesc.isServerStreaming = false) :
    dispatchEvents mdesc (CallResult.msgRes mo) = unaryEvents mo := by
  unfold dispatchEvents
  rw [hs]

theorem dispatchEvents_true_msg (mdesc : MethodDesc) (mo : UnaryOutcome)
    (hs : mdesc.isServerStreaming = true) :
    dispatchEvents mdesc (CallResult.msgRes mo) = [] := by
  unfold dispatchEvents
  rw [hs]

theorem dispatchEvents_false_stream (mdesc : MethodDesc) (so : StreamOutcome)
    (hs : mdesc.isServerStreaming = false) :
    dispatchEvents mdesc (CallResult.streamRes so) = [] := by
  unfold dispatchEvents
  rw [hs]

theorem unaryEvents_no_client_message (mo : UnaryOutcome) :
    ∀ e ∈ unaryEvents mo, e.eventType ≠ GrpcEventType.clientMessage := by
  intro e he
  cases mo with
  | ok r =>
    simp only [unaryEvents, List.mem_cons, List.not_mem_nil, or_false] at he
    rcases he with rfl | rfl | rfl
    · simp [infoEvent]
    · simp
    · simp
  | err e2 =>
    simp only [unaryEvents, List.mem_singleton] at he
    subst he
    rw [failedConnectEvent_type]
    simp

theorem streamEvents_no_client_message (so : StreamOutcome) :
    ∀ e ∈ streamEvents so, e.eventType ≠ GrpcEventType.clientMessage := by
  intro e he
  cases so with
  | ok s =>
    simp only [streamEvents, List.mem_cons] at he
    rcases he with rfl | h2
    · simp [infoEvent]
    · exact streamLoop_no_client_message s.items s.trailers e h2
  | err e2 =>
    simp only [streamEvents, List.mem_singleton] at he
    subst he
    rw [failedConnectEvent_type]
    simp

theorem dispatchEvents_no_client_message (mdesc : MethodDesc)
    (result : CallResult) :
    ∀ e ∈ dispatchEvents mdesc result,
      e.eventType ≠ GrpcEventType.clientMessage := by
  cases hsv : mdesc.isServerStreaming with
  | true =>
    cases result with
    | msgRes mo =>
      rw [dispatchEvents_true_msg mdesc mo hsv]
      intro e he
      simp at he
    | streamRes so =>
      rw [dispatchEvents_stream mdesc so hsv]
      exact streamEvents_no_client_message so
  | false =>
    cases result with
    | msgRes mo =>
      rw [dispatchEvents_msg mdesc mo hsv]
      exact unaryEvents_no_client_message mo
    | streamRes so =>
      rw [dispatchEvents_false_stream mdesc so hsv]
      intro e he
      simp at he

/-- C10: for a call shape whose client side does not stream, an empty request
message text is replaced by the literal empty JSON object as the single
outbound message, a non-empty message text is used verbatim, and the
ClientMessage events of the completed run are exactly one event recording
that outbound message. -/
theorem c10_default_message (mdesc : MethodDesc) (url : String)
    (meta : List (String × String)) (m : String) (result : CallResult)
    (hcs : mdesc.isClientStreaming = false) :
    effectiveMessage ("") = ("\x7b\x7d") ∧
    (m ≠ ("") → effectiveMessage m = m) ∧
    (grpcRunEvents mdesc url meta m result none).filter
        (fun e => e.eventType == GrpcEventType.clientMessage) =
      [{ eventType := GrpcEventType.clientMessage,
         content := effectiveMessage m }] := by
  refine ⟨rfl, ?_, ?_⟩
  · intro hm
    unfold effectiveMessage
    rw [if_neg (by simpa using hm)]
  · show (connectionStartEvent url meta ::
      grpcListen mdesc (effectiveMessage m) result).filter _ = _
    unfold grpcListen
    rw [hcs]
    show ((connectionStartEvent url meta ::
      ([{ eventType := GrpcEventType.clientMessage,
          content := effectiveMessage m }] ++
        dispatchEvents mdesc result)) : List GrpcEvent).filter _ = _
    rw [List.filter_cons_of_neg (by simp [connectionStartEvent]),
      List.filter_append, List.filter_cons_of_pos (by simp), List.filter_nil,
      List.filter_eq_nil_iff.mpr ?_]
    · simp
    · intro a ha
      simpa using dispatchEvents_no_client_message mdesc result a ha

/-- Witness for C10 at a unary call with an empty message text. -/
theorem c10_default_message_witness :
    (grpcRunEvents ⟨false, false⟩ ("h") [] ("")
        (CallResult.msgRes (UnaryOutcome.ok { content := ("resp") })) none).filter
        (fun e => e.eventType == GrpcEventType.clientMessage) =
      [{ eventType := GrpcEventType.clientMessage, content := ("\x7b\x7d") }] :=
  (c10_default_message ⟨false, false⟩ ("h") [] ("")
    (CallResult.msgRes (UnaryOutcome.ok { content := ("resp") })) rfl).2.2

end Yaak
